import Mathlib

/-!
Verification of `osmium::io::Header` (src/contrib/libosmium/osmium/io/header.hpp).

The Header class stores a vector of bounding boxes, a boolean flag telling
whether the stream may contain multiple versions of the same object, and
(via inheritance from `osmium::Options`) an ordered string key-value store.
The Box and Options collaborators live outside the sources at hand
(`osmium/osm/box.hpp`, `osmium/util/options.hpp`), so they are modelled
from the specification of their required contract; the Header operations
themselves are translated directly from `header.hpp`.
-/

namespace Osmium

/-- Modelled from the spec: the Box collaborator (`osmium/osm/box.hpp` is not
among the sources). A bounding box has a validity flag and min/max
coordinates; the default-constructed box is invalid/empty. -/
structure Box where
  valid : Bool
  min_x : Int
  min_y : Int
  max_x : Int
  max_y : Int
deriving DecidableEq, Repr

/-- Modelled from the spec: the default/invalid construction state of a Box
(`osmium::Box{}`), whose validity predicate is false. -/
def Box.invalid : Box := ⟨false, 0, 0, 0, 0⟩

/-- Modelled from the spec: `Box::extend` grows a box to include another
box's extent; extending by an invalid box is a no-op, and extending an
invalid box by a valid one adopts the valid box's extent. -/
def Box.extend (self other : Box) : Box :=
  if other.valid then
    if self.valid then
      ⟨true, min self.min_x other.min_x, min self.min_y other.min_y,
             max self.max_x other.max_x, max self.max_y other.max_y⟩
    else other
  else self

/-- Geometric containment of boxes: `outer.contains inner` holds when the
extent of `inner` lies inside the extent of `outer`; an invalid (empty)
box is contained in every box. -/
def Box.contains (outer inner : Box) : Prop :=
  inner.valid = false ∨
    (outer.valid = true ∧ outer.min_x ≤ inner.min_x ∧ outer.min_y ≤ inner.min_y ∧
       inner.max_x ≤ outer.max_x ∧ inner.max_y ≤ outer.max_y)

instance (outer inner : Box) : Decidable (outer.contains inner) := by
  unfold Box.contains
  infer_instance

/-- Modelled from the spec: lookup in the Options collaborator
(`osmium/util/options.hpp` is not among the sources): an ordered string
key-value store; get-by-key returns the value stored for the first
occurrence of the key, if any. -/
def optionsGet (o : List (String × String)) (key : String) : Option String :=
  match o with
  | [] => none
  | p :: rest => if p.1 = key then some p.2 else optionsGet rest key

/-- The `osmium::io::Header` class: an option set (inherited from
`osmium::Options`, modelled as an ordered key-value list), the bounding-box
vector `m_boxes`, and the flag `m_has_multiple_object_versions`. -/
structure Header where
  options : List (String × String)
  m_boxes : List Box
  m_has_multiple_object_versions : Bool
deriving DecidableEq, Repr

/-- Default construction (`Header() = default;`): empty option set, empty
box vector (member initializer `m_boxes{}`), flag initialized `false`. -/
def Header.default : Header := ⟨[], [], false⟩

/-- Construction from an initializer list of key-value pairs: delegates to
the Options base-class constructor; boxes and flag keep their defaults. -/
def Header.ofValues (values : List (String × String)) : Header :=
  ⟨values, [], false⟩

/-- Accessor `boxes()`: the ordered sequence of boxes. -/
def Header.boxes (h : Header) : List Box := h.m_boxes

/-- Mutator `boxes(const std::vector<osmium::Box>&)` (called `set_boxes` in
the spec): replaces the whole box sequence and returns the header. -/
def Header.set_boxes (h : Header) (bs : List Box) : Header :=
  { h with m_boxes := bs }

/-- Accessor `box()`: the first box if the sequence is non-empty, else a
default-constructed (invalid) box. -/
def Header.box (h : Header) : Box :=
  match h.m_boxes with
  | [] => Box.invalid
  | b :: _ => b

/-- Accessor `joined_boxes()`: starts from a default-constructed box and
extends it by every box of the sequence in order. -/
def Header.joined_boxes (h : Header) : Box :=
  h.m_boxes.foldl Box.extend Box.invalid

/-- Mutator `add_box`: appends the given box to the box vector and returns
the header. -/
def Header.add_box (h : Header) (box : Box) : Header :=
  { h with m_boxes := h.m_boxes ++ [box] }

/-- Accessor `has_multiple_object_versions()`. -/
def Header.has_multiple_object_versions (h : Header) : Bool :=
  h.m_has_multiple_object_versions

/-- Mutator `set_has_multiple_object_versions`: sets the flag and returns
the header. -/
def Header.set_has_multiple_object_versions (h : Header) (value : Bool) : Header :=
  { h with m_has_multiple_object_versions := value }

/-- Option lookup on a Header, forwarded to the inherited option set. -/
def Header.get_option (h : Header) (key : String) : Option String :=
  optionsGet h.options key

lemma Box.extend_valid (a b : Box) :
    (Box.extend a b).valid = (a.valid || b.valid) := by
  unfold Box.extend
  by_cases hb : b.valid <;> by_cases ha : a.valid <;> simp [ha, hb]

lemma Box.extend_invalid_right (a b : Box) (hb : b.valid = false) :
    Box.extend a b = a := by
  unfold Box.extend
  simp [hb]

lemma Box.extend_left_comm (a b c : Box) :
    Box.extend (Box.extend a b) c = Box.extend (Box.extend a c) b := by
  unfold Box.extend
  by_cases hb : b.valid <;> by_cases hc : c.valid <;> by_cases ha : a.valid <;>
    simp [ha, hb, hc, min_assoc, min_comm, min_left_comm, max_assoc, max_comm,
      max_left_comm, inf_assoc, inf_comm, inf_left_comm, sup_assoc, sup_comm,
      sup_left_comm]

lemma foldl_extend_valid (l : List Box) (a : Box) :
    (l.foldl Box.extend a).valid = (a.valid || l.any Box.valid) := by
  induction l generalizing a with
  | nil => simp
  | cons b t ih => simp [List.foldl_cons, ih, Box.extend_valid, Bool.or_assoc]

lemma foldl_extend_perm {l1 l2 : List Box} (p : l1.Perm l2) :
    ∀ a : Box, l1.foldl Box.extend a = l2.foldl Box.extend a := by
  induction p with
  | nil => intro a; rfl
  | cons x _ ih => intro a; simp only [List.foldl_cons]; exact ih _
  | swap x y l => intro a; simp only [List.foldl_cons, Box.extend_left_comm]
  | trans _ _ ih1 ih2 => intro a; rw [ih1, ih2]

lemma Box.contains_refl (a : Box) : a.contains a := by
  unfold Box.contains
  by_cases ha : a.valid <;> simp [ha]

lemma Box.extend_contains_left (a b : Box) : (Box.extend a b).contains a := by
  unfold Box.extend
  by_cases hb : b.valid <;> by_cases ha : a.valid <;>
    simp [Box.contains, ha, hb]

/-- C1: for every sequence of boxes held by a Header, `joined_boxes()`
returns the left-to-right fold of `Box.extend` over the sequence starting
from a default-constructed invalid box, and the validity predicate of the
result is false if and only if the sequence is empty or contains only
invalid boxes. -/
theorem C1_joined_boxes_fold_validity (h : Header) :
    h.joined_boxes = h.m_boxes.foldl Box.extend Box.invalid ∧
      (h.joined_boxes.valid = false ↔ ∀ b ∈ h.m_boxes, b.valid = false) := by
  refine ⟨rfl, ?_⟩
  unfold Header.joined_boxes
  rw [foldl_extend_valid]
  simp [Box.invalid]

/-- C2: for a Header with a non-empty box sequence, `box()` returns exactly
the first element of the sequence, unaffected by the remaining elements;
for an empty box sequence it returns an invalid box (validity predicate
false). -/
theorem C2_box_first_or_invalid (h : Header) :
    (∀ b t, h.m_boxes = b :: t → h.box = b) ∧
      (h.m_boxes = [] → h.box.valid = false) := by
  constructor
  · intro b t hbt
    unfold Header.box
    rw [hbt]
  · intro he
    unfold Header.box
    rw [he]
    rfl

/-- Witness for C2 at a two-element box sequence: `box()` is the first
element, whatever follows it. -/
theorem C2_box_first_or_invalid_witness :
    (Header.mk [] [Box.mk true 0 0 1 1, Box.mk true 5 5 6 6] false).box
      = Box.mk true 0 0 1 1 :=
  (C2_box_first_or_invalid _).1 _ _ rfl

/-- C3: `joined_boxes()` is independent of the order of the boxes in the
sequence: on any permutation of the box sequence it returns the same box,
since `Box.extend` treats invalid boxes as identity and is commutative in
effect. -/
theorem C3_joined_boxes_perm (h1 h2 : Header)
    (p : h1.m_boxes.Perm h2.m_boxes) :
    h1.joined_boxes = h2.joined_boxes :=
  foldl_extend_perm p Box.invalid

/-- Witness for C3 at a concrete two-element sequence and its swap. -/
theorem C3_joined_boxes_perm_witness :
    (Header.mk [] [Box.mk true 0 0 1 1, Box.mk true 5 5 6 6] false).joined_boxes
      = (Header.mk [] [Box.mk true 5 5 6 6, Box.mk true 0 0 1 1] false).joined_boxes :=
  C3_joined_boxes_perm _ _ (by decide)

/-- C4: `add_box(b)` leaves the box sequence equal to the previous sequence
with `b` appended at the end, prior elements and their order unchanged and
`b` stored as-is with no deduplication or validity check. -/
theorem C4_add_box_append (h : Header) (b : Box) :
    (h.add_box b).boxes = h.boxes ++ [b] := rfl

/-- C5: `set_boxes(S)` replaces the entire box sequence with exactly `S`,
discarding all prior contents: a subsequent `boxes()` yields exactly `S`. -/
theorem C5_set_boxes_replace (h : Header) (s : List Box) :
    (h.set_boxes s).boxes = s := rfl

/-- C6: a default-constructed Header has `has_multiple_object_versions()`
false, an empty box sequence and an empty option set; and for every Header
and boolean `v`, `set_has_multiple_object_versions(v)` followed by
`has_multiple_object_versions()` returns `v`. -/
theorem C6_default_and_flag_roundtrip :
    Header.default.has_multiple_object_versions = false ∧
      Header.default.boxes = [] ∧
      Header.default.options = [] ∧
      ∀ (h : Header) (v : Bool),
        (h.set_has_multiple_object_versions v).has_multiple_object_versions = v :=
  ⟨rfl, rfl, rfl, fun _ _ => rfl⟩

/-- C7: the chained expression
`h.add_box(b1).add_box(b2).set_has_multiple_object_versions(true)` leaves
the Header with box sequence ending in `b1` then `b2` and the flag true,
and equals the state obtained by invoking the three mutators separately in
the same order. -/
theorem C7_chaining (h : Header) (b1 b2 : Box) :
    (((h.add_box b1).add_box b2).set_has_multiple_object_versions true).boxes
        = h.boxes ++ [b1, b2] ∧
      (((h.add_box b1).add_box b2).set_has_multiple_object_versions
          true).has_multiple_object_versions = true ∧
      ((h.add_box b1).add_box b2).set_has_multiple_object_versions true
        = (Header.set_has_multiple_object_versions
            (Header.add_box (Header.add_box h b1) b2) true) := by
  refine ⟨?_, rfl, rfl⟩
  simp [Header.add_box, Header.set_has_multiple_object_versions, Header.boxes]

/-- C8: each mutator affects only the field it names: `add_box` and
`set_boxes` leave the multi-version flag and the inherited option set
unchanged, and `set_has_multiple_object_versions` leaves the box sequence
and the option set unchanged; all are total functions with no failure. -/
theorem C8_frame_conditions (h : Header) (b : Box) (s : List Box) (v : Bool) :
    ((h.add_box b).has_multiple_object_versions = h.has_multiple_object_versions ∧
        (h.add_box b).options = h.options) ∧
      ((h.set_boxes s).has_multiple_object_versions = h.has_multiple_object_versions ∧
        (h.set_boxes s).options = h.options) ∧
      ((h.set_has_multiple_object_versions v).boxes = h.boxes ∧
        (h.set_has_multiple_object_versions v).options = h.options) :=
  ⟨⟨rfl, rfl⟩, ⟨rfl, rfl⟩, ⟨rfl, rfl⟩⟩

/-- C9: the multi-version flag does not influence any other observable
behavior: two Headers with equal box sequences and equal option sets agree
on `boxes()`, `box()`, `joined_boxes()` and every option lookup, whatever
their flags. -/
theorem C9_flag_noninterference (h1 h2 : Header)
    (hb : h1.m_boxes = h2.m_boxes) (ho : h1.options = h2.options) :
    h1.boxes = h2.boxes ∧ h1.box = h2.box ∧
      h1.joined_boxes = h2.joined_boxes ∧
      ∀ key, h1.get_option key = h2.get_option key := by
  refine ⟨hb, ?_, ?_, ?_⟩
  · unfold Header.box
    rw [hb]
  · unfold Header.joined_boxes
    rw [hb]
  · intro key
    unfold Header.get_option
    rw [ho]

/-- Witness for C9 at two concrete Headers differing only in their flag. -/
theorem C9_flag_noninterference_witness :
    (Header.mk [("generator", "osm2pgsql")] [Box.mk true 0 0 1 1] false).joined_boxes
      = (Header.mk [("generator", "osm2pgsql")] [Box.mk true 0 0 1 1] true).joined_boxes :=
  (C9_flag_noninterference _ _ rfl rfl).2.2.1

/-- C10: adding a box never shrinks the joined bounding box: after
`add_box(b)` the result of `joined_boxes()` geometrically contains the
result before the call, and equals it when `b` is invalid. -/
theorem C10_add_box_monotone (h : Header) (b : Box) :
    ((h.add_box b).joined_boxes).contains h.joined_boxes ∧
      (b.valid = false → (h.add_box b).joined_boxes = h.joined_boxes) := by
  have hfold : (h.add_box b).joined_boxes = Box.extend h.joined_boxes b := by
    unfold Header.joined_boxes Header.add_box
    simp [List.foldl_append]
  constructor
  · rw [hfold]
    exact Box.extend_contains_left _ _
  · intro hinv
    rw [hfold, Box.extend_invalid_right _ _ hinv]

/-- Witness for C10: adding an invalid box leaves the joined box unchanged
on a concrete Header. -/
theorem C10_add_box_monotone_witness :
    ((Header.mk [] [Box.mk true 0 0 1 1] false).add_box Box.invalid).joined_boxes
      = (Header.mk [] [Box.mk true 0 0 1 1] false).joined_boxes :=
  (C10_add_box_monotone _ _).2 rfl

end Osmium
